import Mathlib

/-!
Verification development for the StreamRecorderOptimize repository.

The definitions below are shallow embeddings of the Python source:

* `core/engines/time_utils.py`   — `TimeParser`, `TimeInterval`
* `core/engines/flv_manager.py`  — `FlvFileManager`
* `core/engines/indexing.py`     — the indexer family
* `core/engines/file_operations.py` — `FileOperations`, `MergeOperations`
* `core/processors/l3_time.py`   — `TimeBasedMerger`, `L3Processor`
* `core/processors/l4_crossday.py` — `CrossDayMerger`
* `core/processors/l5_errortime.py` — `L5Processor`

Python naive `datetime` values are embedded as `Nat` seconds counted from an
arbitrary day-aligned origin: `datetime.date()` becomes `dayOf`,
`datetime.hour` becomes `hourOf`, `timedelta.total_seconds()` of a difference
becomes subtraction in `Int`, and `datetime.combine(d + 1 day, midnight)`
becomes `midnightAfter`.  This mapping preserves ordering, differences,
calendar-day identity and the hour field, which is all the embedded code uses.
-/

namespace SRO

/-- A second count standing for a Python naive `datetime`. -/
abbrev DT := Nat

/-- Python `datetime.date()`: the calendar day, as days since the origin. -/
def dayOf (t : DT) : Nat := t / 86400

/-- Python `datetime.hour` of a timestamp. -/
def hourOf (t : DT) : Nat := t % 86400 / 3600

/-- Midnight that ends the calendar day of `t`: Python
`datetime.combine(t.date() + timedelta(days=1), datetime.min.time())`. -/
def midnightAfter (t : DT) : Nat := (dayOf t + 1) * 86400

/-- `TimeInterval.calculate_seconds_between` (time_utils.py:168):
`abs((time2 - time1).total_seconds())`. -/
def calculateSecondsBetween (time1 time2 : DT) : Nat :=
  ((time2 : Int) - (time1 : Int)).natAbs

/-- `TimeInterval.is_within_interval` (time_utils.py:173):
`calculate_seconds_between(time1, time2) <= max_interval`. -/
def isWithinInterval (time1 time2 : DT) (maxInterval : Nat) : Bool :=
  calculateSecondsBetween time1 time2 ≤ maxInterval

/-- `TimeInterval.calculate_cross_day_interval` (time_utils.py:178).
Returns `none` for the Python `float('inf')` branch taken when
`folder_time.date() != flv_time.date() + timedelta(days=1)`, otherwise
`(midnight - flv_time).total_seconds() + (folder_time - midnight).total_seconds()`
where `midnight` is the midnight that ends `flv_time`'s day.  A finite
comparison `x <= threshold` is `false` whenever the Python value is `inf`,
which is what the `none` case stands for. -/
def calculateCrossDayInterval (flvTime folderTime : DT) : Option Int :=
  if dayOf folderTime = dayOf flvTime + 1 then
    some (((midnightAfter flvTime : Int) - (flvTime : Int)) +
          ((folderTime : Int) - (midnightAfter flvTime : Int)))
  else
    none

/-- The `(path, date)` projection of a `FolderInfo` (time_utils.py:15) that the
L3/L4 chain and pair derivations read: `folder_info.path` and
`folder_info.date`.  `date` is the nominal timestamp parsed from the name. -/
structure FolderE where
  path : String
  date : DT
deriving DecidableEq, Repr

/-!
`TimeBasedMerger.find_merge_chains` (l3_time.py:26-82).

The Python loop keeps a `used_indices` set.  Consumption there is always a
contiguous block: the anchor at index `i` consumes candidates `i+1 .. k` until
the first candidate past the interval breaks the scan, and the outer loop's
next unconsumed index is exactly that breaking candidate (an anchor skipped
for lack of media is never revisited, because candidate scans run strictly
forward).  The state `acc` below is the consumed block of the current anchor
(in reverse), so the single forward pass is the faithful rendering of the
double loop.
-/

/-- One forward pass of `find_merge_chains`: `none` means no current anchor;
`some (a, t0, acc)` means anchor path `a` with fixed media time `t0` has
consumed the candidate paths in `acc` (reversed).  A chain is emitted only
when at least one candidate was consumed (`len(merge_targets) > 1`). -/
def findMergeChainsGo (interval : Nat) (modTime : String → Option DT) :
    Option (String × DT × List String) → List FolderE → List (String × List String)
  | none, [] => []
  | some (a, _, acc), [] => if acc.isEmpty then [] else [(a, acc.reverse)]
  | none, g :: rest =>
    match modTime g.path with
    | none => findMergeChainsGo interval modTime none rest
    | some t0 => findMergeChainsGo interval modTime (some (g.path, t0, [])) rest
  | some (a, t0, acc), g :: rest =>
    if isWithinInterval t0 g.date interval then
      findMergeChainsGo interval modTime (some (a, t0, g.path :: acc)) rest
    else
      (if acc.isEmpty then [] else [(a, acc.reverse)]) ++
      (match modTime g.path with
       | none => findMergeChainsGo interval modTime none rest
       | some t0' => findMergeChainsGo interval modTime (some (g.path, t0', [])) rest)

/-- `TimeBasedMerger.find_merge_chains(folder_list, flv_manager)`:
`modTime` stands for `flv_manager.get_flv_modification_time`; each returned
pair is `(merge_to_folder, folders_to_merge)`. -/
def findMergeChains (interval : Nat) (modTime : String → Option DT)
    (folderList : List FolderE) : List (String × List String) :=
  findMergeChainsGo interval modTime none folderList

def pathA : String := "u/A"

def pathB : String := "u/B"

def pathC : String := "u/C"

def pathD : String := "u/D"

/-- Media-time oracle for the concrete C2 scenario: only the anchor folder has
an flv file, with latest modification time `T0 = 1000`. -/
def mtEx (p : String) : Option DT := if p = pathA then some 1000 else none

def fA : FolderE := ⟨pathA, 900⟩

def fB : FolderE := ⟨pathB, 1025⟩

def fC : FolderE := ⟨pathC, 1090⟩

def fD : FolderE := ⟨pathD, 1040⟩

/-!
`CrossDayMerger` (l4_crossday.py:12-108).  `modTime` stands for
`flv_manager.get_flv_modification_time`, `hasFlv` for
`flv_manager.get_flv_info(...) is not None`, and `firstCreate` for
`flv_manager.get_first_flv_creation_time`.
-/

/-- `CrossDayMerger.is_cross_day_candidate` (l4_crossday.py:23-32): the two
nominal dates are adjacent calendar days, the earlier hour is at or past
`start_hour`, and the later hour is at or before `end_hour`. -/
def isCrossDayCandidate (startHour endHour : Nat) (flvTime folderTime : DT) : Bool :=
  decide (dayOf folderTime = dayOf flvTime + 1) &&
  decide (startHour ≤ hourOf flvTime) && decide (hourOf folderTime ≤ endHour)

/-- Acceptance test that the loop body of
`CrossDayMerger.find_cross_day_pairs` (l4_crossday.py:50-87) applies to the
adjacent pair `(a, b)`.  The Python body performs the same checks as a chain
of early `continue`s; the result is the same conjunction. -/
def crossDayPairAccept (interval : Int) (startHour endHour : Nat)
    (modTime : String → Option DT) (hasFlv : String → Bool)
    (firstCreate : String → Option DT) (a b : FolderE) : Bool :=
  isCrossDayCandidate startHour endHour a.date b.date &&
  match modTime a.path with
  | none => false
  | some tm =>
    hasFlv b.path &&
    match firstCreate b.path with
    | none => false
    | some tc =>
      match calculateCrossDayInterval tm tc with
      | none => false
      | some s => decide (s ≤ interval)

/-- `CrossDayMerger.find_cross_day_pairs` (l4_crossday.py:41-89): walk the
adjacent pairs `(i, i+1)` of the date-sorted title group and collect each
accepted pair as `(target_folder, source_folder)` with the earlier folder as
target. -/
def findCrossDayPairs (interval : Int) (startHour endHour : Nat)
    (modTime : String → Option DT) (hasFlv : String → Bool)
    (firstCreate : String → Option DT) : List FolderE → List (String × String)
  | a :: b :: rest =>
    (if crossDayPairAccept interval startHour endHour modTime hasFlv firstCreate a b
     then [(a.path, b.path)] else []) ++
    findCrossDayPairs interval startHour endHour modTime hasFlv firstCreate (b :: rest)
  | _ => []

/-- Earlier folder of the concrete C3 scenario: nominal name time 23:50:53 of
day 0 (`85853` seconds). -/
def fL4a : FolderE := ⟨pathA, 85853⟩

/-- Later folder of the concrete C3 scenario: nominal name time 00:22:58 of
day 1 (`87778` seconds). -/
def fL4b : FolderE := ⟨pathB, 87778⟩

/-- Media oracle: the earlier folder's latest flv modification time is
23:58:25 of day 0 (`86305`). -/
def mtL4 (p : String) : Option DT := if p = pathA then some 86305 else none

/-- Media oracle: the later folder contains flv files. -/
def hfL4 (p : String) : Bool := p = pathB

/-- Media oracle: the later folder's first flv creation time is 00:22:58 of
day 1 (`87778`). -/
def fcL4 (p : String) : Option DT := if p = pathB then some 87778 else none

/-- Earlier folder of the C3 counterexample: nominal 21:00:00 of day 0. -/
def fX4a : FolderE := ⟨pathA, 75600⟩

/-- Later folder of the C3 counterexample: nominal 01:00:00 of day 1. -/
def fX4b : FolderE := ⟨pathB, 90000⟩

/-- Media oracle for the C3 counterexample: the earlier folder's recording ran
past midnight, so its latest flv modification time is 00:30:00 of day 1
(`88200`). -/
def mtX4 (p : String) : Option DT := if p = pathA then some 88200 else none

/-- Media oracle for the C3 counterexample: the later folder's first flv
creation time is 00:40:00 of day 1 (`88800`). -/
def fcX4 (p : String) : Option DT := if p = pathB then some 88800 else none

/-!
`ErrorTimeIndexer` (indexing.py:199-281) and `L5Processor._process_user_folder`
(l5_errortime.py:92-146).
-/

/-- Calendar day as a signed count, so that Python's
`date - timedelta(days=1)` is plain subtraction. -/
def dayZ (t : DT) : Int := (dayOf t : Int)

/-- An error-time folder record after recovery: `path` and `title` from the
name, `date` the timestamp recovered from the embedded flv filename
(indexing.py:220-232 rebuilds the `FolderInfo` with the real date). -/
structure ErrFolderInfo where
  path : String
  date : DT
  title : String
deriving DecidableEq, Repr

/-- The `normal_folders` dict of `ErrorTimeIndexer` (indexing.py:205):
`{(date, title): folder}`, embedded as an association list with the folder's
path as the stored value.  `dict.get` is the first (and only, keys are
unique) association for the key. -/
def lookupNormal (normals : List ((Int × String) × String)) (k : Int × String) :
    Option String :=
  match normals.find? (fun e => e.1 = k) with
  | some e => some e.2
  | none => none

/-- `ErrorTimeIndexer.find_matching_normal_folder` (indexing.py:247-277):
exact `(date, title)` lookup first; on a miss, the previous-day key is tried
and accepted only when the recovered hour lies in `[0, 6]`. -/
def findMatchingNormalFolder (normals : List ((Int × String) × String))
    (e : ErrFolderInfo) : Option String :=
  match lookupNormal normals (dayZ e.date, e.title) with
  | some m => some m
  | none =>
    match lookupNormal normals (dayZ e.date - 1, e.title) with
    | some m =>
      if decide (0 ≤ hourOf e.date) && decide (hourOf e.date ≤ 6) then some m
      else none
    | none => none

/-- The per-user fix derivation of `L5Processor._process_user_folder`
(l5_errortime.py:109-127): each error folder with a matching normal folder
yields one `(error path, target path)` fix; an error folder without a match is
left untouched. -/
def l5DeriveFixes (normals : List ((Int × String) × String))
    (errs : List ErrFolderInfo) : List (String × String) :=
  errs.filterMap (fun e =>
    match findMatchingNormalFolder normals e with
    | some t => some (e.path, t)
    | none => none)

def titleShow : String := "Show"

def pathErr : String := "u/19700101-080000_Show"

def pathNorm520 : String := "u/20250520-230000_Show"

/-- Normal-folder index of the C4 witness: only a folder for the previous day
(day 20230) of title `Show` exists. -/
def normalsEx : List ((Int × String) × String) := [((20230, titleShow), pathNorm520)]

/-- Error record of the C4 witness: recovered timestamp at hour 19 of day
20231 (`20231 * 86400 + 19 * 3600` seconds). -/
def errEx : ErrFolderInfo := ⟨pathErr, 20231 * 86400 + 19 * 3600, titleShow⟩

/-!
`FileOperations.move_files_between_folders` (file_operations.py:160-201) and
`MergeOperations.merge_folder_contents` (file_operations.py:279-300) — the
merge execution path shared by all four merge algorithms (L2 BLREC, L3, L4 and
L5 all call `MergeOperations.merge_folder_list_to_target` or
`merge_folder_contents`).

A directory entry is embedded as an `MFile` (the function handles every entry
uniformly through `os.path.exists` and `shutil.move`); `content` stands for
the file's bytes, so equal `content` means equal MD5.  On a name collision the
Python loop computes a timestamp-suffixed `new_name`, but then still calls
`shutil.move(source_path, target_folder)` with the plain target directory;
since `target_folder/item` exists, `shutil.move` raises
`Error("Destination path ... already exists")`, the surrounding `except`
returns `False`, and the colliding entry together with every later entry
stays in the source folder.  No MD5 is ever computed on this path.
-/

/-- One source-directory entry: name, filesystem modification time, content. -/
structure MFile where
  name : String
  mtime : Nat
  content : Nat
deriving DecidableEq, Repr

/-- `FileOperations.move_files_between_folders(source, target)`: returns
`(success, remaining source entries, target entries)`.  Entries are moved in
listing order until the first name collision, which aborts the whole call
(exception caught at function level, `return False`); already-moved entries
stay moved. -/
def moveFilesBetweenFolders : List MFile → List MFile → Bool × List MFile × List MFile
  | [], tgt => (true, [], tgt)
  | f :: rest, tgt =>
    if tgt.any (fun g => g.name = f.name) then
      (false, f :: rest, tgt)
    else
      moveFilesBetweenFolders rest (tgt ++ [f])

/-- `MergeOperations.merge_folder_contents(source, target)`: move the files,
then remove the source folder only if the move succeeded and the folder is
empty (`FileOperations.remove_empty_folder`).  `none` in the middle component
means the source folder was removed. -/
def mergeFolderContents (src tgt : List MFile) : Bool × Option (List MFile) × List MFile :=
  let r := moveFilesBetweenFolders src tgt
  if r.1 then
    if r.2.1.isEmpty then (true, none, r.2.2) else (false, some r.2.1, r.2.2)
  else (false, some r.2.1, r.2.2)

def nameColl : String := "a.flv"

/-- The single source entry of the C1 scenario. -/
def srcC1 : List MFile := [⟨nameColl, 10, 7⟩]

/-- The target holds a same-named entry with the same content (equal MD5). -/
def tgtC1 : List MFile := [⟨nameColl, 10, 7⟩]

/-!
The full per-user pass of `L3Processor._process_user_folder`
(l3_time.py:143-192): scan and index (`TimeBasedIndexer`, indexing.py:158-168
over `BaseFolderIndexer.scan_and_index`, indexing.py:50-88), derive chains per
group, execute them (`TimeBasedMerger.execute_merges`,
`MergeOperations.merge_folder_list_to_target`), then
`FileOperations.cleanup_empty_folders` (file_operations.py:204-230).

The directory tree is embedded as the user folder's children: a list of
`MFolder` records carrying the parsed nominal `date` and `title` (the scan
parses these from the unchanged folder names, so a re-scan sees exactly the
surviving folders) and the contained files.
-/

/-- Character-list rendition of `str.endswith` used to embed the
`glob("*.flv")` filter. -/
def segAt : List Char → List Char → Bool
  | [], _ => true
  | _ :: _, [] => false
  | p :: ps, c :: cs => p = c && segAt ps cs

/-- True when `pat` occurs contiguously inside `s`. -/
def containsSeg (pat : List Char) : List Char → Bool
  | [] => pat.isEmpty
  | c :: rest => segAt pat (c :: rest) || containsSeg pat rest

/-- The suffix `.flv`, reversed for the suffix test. -/
def flvSfxRev : List Char := ('.' :: 'f' :: 'l' :: 'v' :: []).reverse

/-- `glob(os.path.join(folder_path, "*.flv"))` membership test for one name. -/
def isFlvName (s : String) : Bool := segAt flvSfxRev s.data.reverse

/-- One child directory of the user folder, as the L3 scan sees it. -/
structure MFolder where
  path : String
  date : DT
  title : String
  files : List MFile
deriving DecidableEq, Repr

/-- Look a folder up by path — the live filesystem read. -/
def fsFind (fs : List MFolder) (p : String) : Option MFolder :=
  fs.find? (fun f => f.path = p)

/-- Greatest modification time of a file list, `none` when empty. -/
def maxMTimes : List MFile → Option Nat
  | [] => none
  | f :: rest => some (rest.foldl (fun m g => max m g.mtime) f.mtime)

/-- `FlvFileManager.get_flv_modification_time` (flv_manager.py:114-146): read
the folder from the live tree, keep the `*.flv` files, and return the greatest
modification time; `none` when the folder is missing or holds no flv files.
This accessor is uncached in the source (it re-reads the filesystem on every
call), which is why a merge executed earlier in the same pass is visible
here. -/
def fsModTime (fs : List MFolder) (p : String) : Option DT :=
  match fsFind fs p with
  | none => none
  | some fo => maxMTimes (fo.files.filter (fun f => isFlvName f.name))

/-- Append a folder to its `(date.date(), title)` group, keeping first-seen
key order like the Python `defaultdict` (indexing.py:34,70-79). -/
def insertGrouped (k : Nat × String) (f : MFolder) :
    List ((Nat × String) × List MFolder) → List ((Nat × String) × List MFolder)
  | [] => [(k, [f])]
  | (k', fs) :: rest =>
    if k' = k then (k', fs ++ [f]) :: rest else (k', fs) :: insertGrouped k f rest

/-- `TimeBasedIndexer` grouping of the scan: key `(date.date(), title)`
(indexing.py:161-168). -/
def groupFolders (fs : List MFolder) : List ((Nat × String) × List MFolder) :=
  fs.foldl (fun acc f => insertGrouped (dayOf f.date, f.title) f acc) []

/-- Stable insertion step for the per-group date sort (indexing.py:82-83,
Python `list.sort` is stable). -/
def insertByDate (f : MFolder) : List MFolder → List MFolder
  | [] => [f]
  | g :: rest => if f.date ≤ g.date then f :: g :: rest else g :: insertByDate f rest

/-- Sort a group ascending by nominal date, stably. -/
def sortByDate (l : List MFolder) : List MFolder := l.foldr insertByDate []

/-- `BaseFolderIndexer.get_mergeable_groups(min_size=2)` (indexing.py:118-129)
applied to the sorted groups. -/
def mergeableGroups (fs : List MFolder) : List ((Nat × String) × List MFolder) :=
  (groupFolders fs).filterMap (fun kg =>
    if 2 ≤ kg.2.length then some (kg.1, sortByDate kg.2) else none)

/-- The `(path, date)` view handed to `find_merge_chains`. -/
def toFolderE (f : MFolder) : FolderE := ⟨f.path, f.date⟩

/-- Replace one folder's file list. -/
def fsSetFiles (fs : List MFolder) (p : String) (files : List MFile) : List MFolder :=
  fs.map (fun f => if f.path = p then ⟨f.path, f.date, f.title, files⟩ else f)

/-- Remove a folder from the tree (`os.rmdir`). -/
def fsRemoveFolder (fs : List MFolder) (p : String) : List MFolder :=
  fs.filter (fun f => ¬ f.path = p)

/-- `MergeOperations.merge_folder_contents` acting on the tree: move the
source folder's entries into the target, then remove the source folder when
it was fully emptied.  A missing source or target raises inside Python and
the exception is caught (`return False`), leaving the tree unchanged. -/
def fsMergeFolderContents (fs : List MFolder) (src tgt : String) : List MFolder :=
  match fsFind fs src, fsFind fs tgt with
  | some s, some t =>
    let r := moveFilesBetweenFolders s.files t.files
    let fs1 := fsSetFiles (fsSetFiles fs src r.2.1) tgt r.2.2
    if r.1 && r.2.1.isEmpty then fsRemoveFolder fs1 src else fs1
  | _, _ => fs

/-- `MergeOperations.merge_folder_list_to_target` (file_operations.py:303-321)
for one chain `(target, sources)`: fold the sources into the target, skipping
a source equal to the target. -/
def execChain (fs : List MFolder) (c : String × List String) : List MFolder :=
  c.2.foldl (fun fs2 s => if s = c.1 then fs2 else fsMergeFolderContents fs2 s c.1) fs

/-- The group loop of `_process_user_folder` (l3_time.py:163-173): for each
mergeable group, derive the chains from the current tree (media times are
re-read live) and execute them, accumulating the number of derived merge
instructions (chains). -/
def l3Groups (interval : Nat) :
    List ((Nat × String) × List MFolder) → List MFolder × Nat → List MFolder × Nat
  | [], st => st
  | kg :: rest, st =>
    l3Groups interval rest
      ((findMergeChains interval (fsModTime st.1) (kg.2.map toFolderE)).foldl execChain st.1,
       st.2 + (findMergeChains interval (fsModTime st.1) (kg.2.map toFolderE)).length)

/-- `FileOperations.cleanup_empty_folders` (file_operations.py:204-230):
remove the empty child folders of the user folder. -/
def cleanupTopEmpty (fs : List MFolder) : List MFolder :=
  fs.filter (fun f => ¬ f.files.isEmpty)

/-- One invocation of `L3Processor._process_user_folder` on a user folder:
scan and index once, derive and execute each group's chains, prune empty
children; returns the resulting tree and the number of merge instructions
derived by this single pass. -/
def l3Pass (interval : Nat) (fs : List MFolder) : List MFolder × Nat :=
  (cleanupTopEmpty (l3Groups interval (mergeableGroups fs) (fs, 0)).1,
   (l3Groups interval (mergeableGroups fs) (fs, 0)).2)

/-- Modelled from the spec: "each is re-applied in a loop until a pass
produces zero instructions" (§4.4) — the re-run semantics the spec ascribes to
one invocation, with explicit fuel.  This definition follows the spec's
words, not the source; the source's `_process_user_folder` has no such
loop. -/
def specLoopL3 (interval : Nat) : Nat → List MFolder → List MFolder
  | 0, fs => fs
  | fuel + 1, fs =>
    let r := l3Pass interval fs
    if r.2 = 0 then r.1 else specLoopL3 interval fuel r.1

def name5a : String := "a.flv"

def name5b : String := "b.flv"

def name5c : String := "c.flv"

def title5 : String := "t"

/-- Concrete tree for C5/C6: three same-day, same-title folders.  The anchor
folder `u/A` has latest flv time 1000; `u/B` (nominal 1025) is within 60s of
it, `u/C` (nominal 1090) is not.  `u/B`'s flv has modification time 1089, so
after `u/B` is merged into `u/A`, the anchor's latest flv time becomes 1089
and `u/C` comes within 60s — the first pass exposes a new mergeable pair. -/
def fs5 : List MFolder :=
  [⟨pathA, 900, title5, [⟨name5a, 1000, 0⟩]⟩,
   ⟨pathB, 1025, title5, [⟨name5b, 1089, 1⟩]⟩,
   ⟨pathC, 1090, title5, [⟨name5c, 2000, 2⟩]⟩]

/-!
Recursive directory trees, for
`FileOperations.cleanup_empty_folders_recursive` (file_operations.py:114-158)
and `FileOperations._merge_folder_contents_with_md5`
(file_operations.py:73-112).  `Entry.file c` carries the file's content (MD5
equality is content equality), `Entry.dir` its children in listing order.
-/

inductive Entry where
  | file : Nat → Entry
  | dir : List (String × Entry) → Entry
deriving Repr

/-- The recording-status dict (`recording_status`), `none` when the caller
passes no status: each name maps to its `recording` and `streaming` flags. -/
abbrev Status := Option (List (String × Bool × Bool))

/-- The active check of `cleanup_empty_folders_recursive`
(file_operations.py:144-148): `recording_status.get(folder_name)` followed by
`folder_status["recording"] or folder_status["streaming"]`. -/
def isActive (st : Status) (name : String) : Bool :=
  match st with
  | none => false
  | some l =>
    match l.find? (fun e => e.1 = name) with
    | some e => e.2.1 || e.2.2
    | none => false

/-- Verdict on a directory after its children were processed
(file_operations.py:139-153): if nothing is left, delete it — unless its base
name is flagged active; otherwise keep the remaining children.  `none` means
deleted; the `Nat` is the running deleted count. -/
def dirVerdict (st : Status) (name : String) (p : List (String × Entry) × Nat) :
    Option Entry × Nat :=
  if p.1.isEmpty then
    if isActive st name then (some (.dir []), p.2) else (none, p.2 + 1)
  else (some (.dir p.1), p.2)

mutual
/-- `FileOperations.cleanup_empty_folders_recursive(directory, recording_status)`
on one entry: a file is left alone (the `os.path.isdir` guard makes the call a
no-op on a file, which is exactly `(some file, 0)`); a directory has its
children processed post-order and is then deleted exactly when it ended up
empty and is not flagged active. -/
def cleanupE (st : Status) (name : String) : Entry → Option Entry × Nat
  | .file c => (some (.file c), 0)
  | .dir es => dirVerdict st name (cleanupL st es)
/-- The child loop of `cleanup_empty_folders_recursive`
(file_operations.py:132-136): each child is processed (files come back
unchanged with count 0, matching the `os.path.isdir` guard) and dropped when
its verdict is deletion. -/
def cleanupL (st : Status) : List (String × Entry) → List (String × Entry) × Nat
  | [] => ([], 0)
  | (n, e) :: rest =>
    match cleanupE st n e with
    | (none, c2) => ((cleanupL st rest).1, (cleanupL st rest).2 + c2)
    | (some e', c2) => ((n, e') :: (cleanupL st rest).1, (cleanupL st rest).2 + c2)
end

mutual
/-- True when the subtree holds no file at any depth ("recursively empty"). -/
def recEmptyE : Entry → Bool
  | .file _ => false
  | .dir es => recEmptyL es
def recEmptyL : List (String × Entry) → Bool
  | [] => true
  | (_, e) :: rest => recEmptyE e && recEmptyL rest
end

mutual
/-- All files of a subtree, as `(relative path, content)` pairs. -/
def filesOfE : Entry → List (List String × Nat)
  | .file c => [([], c)]
  | .dir es => filesOfL es
def filesOfL : List (String × Entry) → List (List String × Nat)
  | [] => []
  | (n, e) :: rest =>
    (filesOfE e).map (fun pc => (n :: pc.1, pc.2)) ++ filesOfL rest
end

/-- `[(path of this entry, its base name)]` when the entry is a directory,
`[]` for a file — the entry's own contribution to `dirPathsL`. -/
def dirSelf (n : String) : Entry → List (List String × String)
  | .file _ => []
  | .dir _ => [([n], n)]

mutual
/-- All subdirectories of a subtree, as `(relative path, base name)` pairs. -/
def dirPathsE : Entry → List (List String × String)
  | .file _ => []
  | .dir es => dirPathsL es
def dirPathsL : List (String × Entry) → List (List String × String)
  | [] => []
  | (n, e) :: rest =>
    dirSelf n e ++ (dirPathsE e).map (fun pb => (n :: pb.1, pb.2)) ++ dirPathsL rest
end

def nameD : String := "D"

def nameE : String := "E"

def nameF : String := "f"

/-- C9 counterexample tree: a directory holding one file and one empty
subdirectory. -/
def tree9 : Entry := .dir [(nameE, .dir []), (nameF, .file 0)]

/-!
`FileOperations._merge_folder_contents_with_md5` (file_operations.py:73-112),
the merge used by `FileOperations.move_folder_advanced` when the target
exists.  The loop walks a snapshot of `os.listdir(source)`; a same-named pair
of files is resolved by MD5 (delete the source copy when equal, skip when
different), any other same-named pair — in particular two directories — is
skipped with no recursion; an unmatched entry is moved.  After an equal-file
deletion and at the end, `cleanup_empty_folders_recursive` runs on the source
directory and may delete pruned-empty subdirectories or the source directory
itself.
-/

/-- `os.path.exists(target/item)` plus reading the entry. -/
def lookupE (es : List (String × Entry)) (n : String) : Option Entry :=
  match es.find? (fun e => e.1 = n) with
  | some e => some e.2
  | none => none

/-- Remove the entry named `n` (`os.remove` / `shutil.move` source side). -/
def eraseKeyE : List (String × Entry) → String → List (String × Entry)
  | [], _ => []
  | (m, e) :: rest, n => if m = n then rest else (m, e) :: eraseKeyE rest n

/-- The loop of `_merge_folder_contents_with_md5` over the listing snapshot
`items`; `src` is the live source directory (`none` once the mid-loop cleanup
has deleted it), `tgt` the live target.  Returns
`(returned value, source contents, target contents)`; a `False` return comes
from the `except` handler after `shutil.move` raises on a vanished source
entry. -/
def mergeMd5Loop (st : Status) (srcName : String) :
    List (String × Entry) → Option (List (String × Entry)) → List (String × Entry) →
    Bool × Option (List (String × Entry)) × List (String × Entry)
  | [], src, tgt =>
    match src with
    | none => (true, none, tgt)
    | some es =>
      match dirVerdict st srcName (cleanupL st es) with
      | (none, _) => (true, none, tgt)
      | (some (.dir es2), _) => (true, some es2, tgt)
      | (some (.file _), _) => (true, some es, tgt)
  | (n, _) :: items, none, tgt =>
    (match lookupE tgt n with
     | some _ => mergeMd5Loop st srcName items none tgt
     | none => (false, none, tgt))
  | (n, _) :: items, some es, tgt =>
    (match lookupE tgt n with
     | some te =>
       match lookupE es n, te with
       | some (.file c), .file c2 =>
         if c = c2 then
           match dirVerdict st srcName (cleanupL st (eraseKeyE es n)) with
           | (none, _) => mergeMd5Loop st srcName items none tgt
           | (some (.dir es2), _) => mergeMd5Loop st srcName items (some es2) tgt
           | (some (.file _), _) =>
             mergeMd5Loop st srcName items (some (eraseKeyE es n)) tgt
         else mergeMd5Loop st srcName items (some es) tgt
       | _, _ => mergeMd5Loop st srcName items (some es) tgt
     | none =>
       match lookupE es n with
       | some ce => mergeMd5Loop st srcName items (some (eraseKeyE es n)) (tgt ++ [(n, ce)])
       | none => (false, some es, tgt))

/-- `FileOperations._merge_folder_contents_with_md5(source, target,
recording_status)`: run the loop over the listing snapshot of the source,
starting from the live source contents. -/
def mergeFolderContentsWithMd5 (st : Status) (srcName : String)
    (src tgt : List (String × Entry)) :
    Bool × Option (List (String × Entry)) × List (String × Entry) :=
  mergeMd5Loop st srcName src (some src) tgt

def nameS : String := "S"

/-- Source of the C7 scenario: one subdirectory `D` holding one file. -/
def src7 : List (String × Entry) := [(nameD, .dir [(nameF, .file 1)])]

/-- Target of the C7 scenario: an empty subdirectory with the same name `D`. -/
def tgt7 : List (String × Entry) := [(nameD, .dir [])]

/-!
`FlvFileManager` (flv_manager.py:26-233).  The filesystem is embedded as an
association list from folder path to the folder's files (name, modification
time, creation time); each accessor takes the filesystem as an argument, so a
call sequence against a changing tree is expressed by passing different
snapshots.  `self.cache` is an explicit association list threaded through the
`get_flv_info`-based accessors; `get_flv_modification_time` and
`get_first_flv_creation_time` never touch it in the source
(flv_manager.py:114-180 read the directory directly on every call).
-/

/-- One file as `FlvFileManager` sees it. -/
structure FlvFileMeta where
  name : String
  mtime : Nat
  ctime : Nat
deriving DecidableEq, Repr

/-- The directory tree visible to `FlvFileManager`. -/
abbrev FlvFS := List (String × List FlvFileMeta)

/-- `os.listdir`/`glob` of one folder: its files, or `none` if missing. -/
def fsFiles (fs : FlvFS) (p : String) : Option (List FlvFileMeta) :=
  match fs.find? (fun e => e.1 = p) with
  | some e => some e.2
  | none => none

/-- The `glob(os.path.join(folder_path, "*.flv"))` filter. -/
def flvOnly (files : List FlvFileMeta) : List FlvFileMeta :=
  files.filter (fun f => isFlvName f.name)

/-- The cached value: filename and modification time of the newest flv file
(`FlvInfo`, flv_manager.py:18-23; `size`/`file_path` are not read by the
embedded callers). -/
structure FlvInfoM where
  filename : String
  mtime : Nat
deriving DecidableEq, Repr

/-- `sort(key=mtime, reverse=True)[0]`: the first file with the greatest
modification time (Python's sort is stable, so ties keep listing order). -/
def pickLatest (f : FlvFileMeta) (rest : List FlvFileMeta) : FlvFileMeta :=
  rest.foldl (fun best g => if best.mtime < g.mtime then g else best) f

/-- `FlvFileManager._extract_flv_info` (flv_manager.py:54-96). -/
def extractFlvInfo (fs : FlvFS) (p : String) : Option FlvInfoM :=
  match fsFiles fs p with
  | none => none
  | some files =>
    match flvOnly files with
    | [] => none
    | f :: rest => some ⟨(pickLatest f rest).name, (pickLatest f rest).mtime⟩

/-- `self.cache` (flv_manager.py:31): path to cached `FlvInfo`-or-`None`. -/
abbrev FlvCache := List (String × Option FlvInfoM)

/-- `FlvFileManager.get_flv_info` (flv_manager.py:35-52): a hit returns the
stored value; a miss computes from the filesystem and stores the result,
`None` included. -/
def getFlvInfo (fs : FlvFS) (cache : FlvCache) (p : String) :
    Option FlvInfoM × FlvCache :=
  match cache.find? (fun e => e.1 = p) with
  | some e => (e.2, cache)
  | none => (extractFlvInfo fs p, (p, extractFlvInfo fs p) :: cache)

/-- `FlvFileManager.has_flv_file` (flv_manager.py:182-192): presence via the
cached `get_flv_info`. -/
def hasFlvFile (fs : FlvFS) (cache : FlvCache) (p : String) : Bool × FlvCache :=
  ((getFlvInfo fs cache p).1.isSome, (getFlvInfo fs cache p).2)

/-- `FlvFileManager.get_flv_modification_time` (flv_manager.py:114-146): the
greatest flv modification time, read from the live filesystem on every call —
no cache parameter because the source never consults `self.cache` here. -/
def getFlvModificationTime (fs : FlvFS) (p : String) : Option Nat :=
  match fsFiles fs p with
  | none => none
  | some files =>
    match flvOnly files with
    | [] => none
    | f :: rest => some (rest.foldl (fun m g => max m g.mtime) f.mtime)

/-- `FlvFileManager.get_first_flv_creation_time` (flv_manager.py:148-180): the
least flv creation time, also read from the live filesystem on every call. -/
def getFirstFlvCreationTime (fs : FlvFS) (p : String) : Option Nat :=
  match fsFiles fs p with
  | none => none
  | some files =>
    match flvOnly files with
    | [] => none
    | f :: rest => some (rest.foldl (fun m g => min m g.ctime) f.ctime)

def fileX : String := "x.flv"

/-- The tree at the first call: one flv file with modification time 10 and
creation time 5. -/
def fs8a : FlvFS := [(pathA, [⟨fileX, 10, 5⟩])]

/-- The tree at the second call: the same file has been written again
(modification time 20) and an earlier-created flv was merged in. -/
def fs8b : FlvFS := [(pathA, [⟨fileX, 20, 5⟩, ⟨"w.flv", 8, 3⟩])]

/-!
`TimeParser` (time_utils.py:24-161).  Python strings are embedded through
`String.data`; regular expressions are rendered as explicit scanners:
`re.match` anchors at the start and allows trailing input, `.` matches any
character except a newline, `(.+)` is greedy (it takes the longest admissible
prefix), and `\d` is modelled as an ASCII decimal digit.  `datetime.strptime`
with `"%Y%m%d-%H%M%S"` validates the calendar fields, which `strptime6`
reproduces.
-/

/-- The six fields of a parsed `datetime`. -/
structure DateTime6 where
  year : Nat
  month : Nat
  day : Nat
  hour : Nat
  minute : Nat
  second : Nat
deriving DecidableEq, Repr

/-- Numeric value of a digit string. -/
def digitsVal (cs : List Char) : Nat :=
  cs.foldl (fun a c => a * 10 + (c.toNat - ('0').toNat)) 0

/-- Gregorian leap-year rule, as `calendar`/`datetime` implement it. -/
def isLeapYear (y : Nat) : Bool :=
  y % 4 = 0 && (y % 100 ≠ 0 || y % 400 = 0)

/-- Days in a month, as `datetime` validates them. -/
def daysInMonth (y m : Nat) : Nat :=
  if m = 2 then (if isLeapYear y then 29 else 28)
  else if m = 4 || m = 6 || m = 9 || m = 11 then 30
  else 31

/-- `datetime.strptime(f"{date_str}-{time_str}", "%Y%m%d-%H%M%S")` on the two
digit groups: `none` is the `ValueError` branch. -/
def strptime6 (d8 t6 : List Char) : Option DateTime6 :=
  if decide (1 ≤ digitsVal (d8.take 4)) && decide (digitsVal (d8.take 4) ≤ 9999) &&
     decide (1 ≤ digitsVal ((d8.drop 4).take 2)) &&
     decide (digitsVal ((d8.drop 4).take 2) ≤ 12) &&
     decide (1 ≤ digitsVal (d8.drop 6)) &&
     decide (digitsVal (d8.drop 6) ≤
       daysInMonth (digitsVal (d8.take 4)) (digitsVal ((d8.drop 4).take 2))) &&
     decide (digitsVal (t6.take 2) ≤ 23) &&
     decide (digitsVal ((t6.drop 2).take 2) ≤ 59) &&
     decide (digitsVal (t6.drop 4) ≤ 59) then
    some ⟨digitsVal (d8.take 4), digitsVal ((d8.drop 4).take 2), digitsVal (d8.drop 6),
          digitsVal (t6.take 2), digitsVal ((t6.drop 2).take 2), digitsVal (t6.drop 4)⟩
  else none

/-- The record `TimeParser.parse_folder_name` produces (`FolderInfo`,
time_utils.py:15-21), with the timestamp kept as its six fields. -/
structure ParsedFolder where
  name : String
  path : String
  date : DateTime6
  title : String
  suffix : Option String
deriving DecidableEq, Repr

/-- The shared head `(\d{8})-(\d{6})_` of `FOLDER_PATTERN` and
`BLREC_PATTERN`: returns the two digit groups and the rest of the input. -/
def matchHead (s : List Char) : Option (List Char × List Char × List Char) :=
  if (s.take 8).length = 8 && (s.take 8).all (fun c => c.isDigit) then
    match s.drop 8 with
    | '-' :: rest2 =>
      if (rest2.take 6).length = 6 && (rest2.take 6).all (fun c => c.isDigit) then
        match rest2.drop 6 with
        | '_' :: r => some (s.take 8, rest2.take 6, r)
        | _ => none
      else none
    | _ => none
  else none

def tagFlv : List Char := "【blrec-flv】".data

def tagHls : List Char := "【blrec-hls】".data

def markerBlrec : List Char := "【blrec-".data

/-- The tail `(.+)【(blrec-flv|blrec-hls)】` of `BLREC_PATTERN` applied to the
input after the underscore: the greedy `(.+)` takes the longest nonempty
newline-free prefix that is immediately followed by one of the two literal
tags; input after the tag is unconstrained (`re.match` allows trailing
text). -/
def blrecSplit : List Char → Option (List Char × String)
  | [] => none
  | c :: rest =>
    if c = '\n' then none
    else
      match blrecSplit rest with
      | some (t, tag) => some (c :: t, tag)
      | none =>
        if segAt tagFlv rest then some ([c], "blrec-flv")
        else if segAt tagHls rest then some ([c], "blrec-hls")
        else none

/-- `TimeParser.is_blrec_format` (time_utils.py:59-62): the marker substring
`【blrec-` occurs in the name. -/
def isBlrecFormat (name : String) : Bool := containsSeg markerBlrec name.data

/-- `TimeParser._parse_blrec_format` (time_utils.py:74-91): full
`BLREC_PATTERN` match plus `strptime`; any failure yields `None`. -/
def parseBlrecFormat (name path : String) : Option ParsedFolder :=
  match matchHead name.data with
  | none => none
  | some (d8, t6, r) =>
    match blrecSplit r with
    | none => none
    | some (t, tag) =>
      match strptime6 d8 t6 with
      | none => none
      | some dt => some ⟨name, path, dt, String.mk t, some tag⟩

/-- `FOLDER_PATTERN = (\d{8})-(\d{6})_(.+)` via `re.match`: the trailing
`(.+)` needs at least one character and stops at a newline. -/
def stdRegex (s : List Char) : Option (List Char × List Char × List Char) :=
  match matchHead s with
  | none => none
  | some (d8, t6, r) =>
    match r with
    | [] => none
    | c :: _ => if c = '\n' then none else some (d8, t6, r.takeWhile (fun x => x ≠ '\n'))

/-- `TimeParser.is_standard_format` (time_utils.py:65-67). -/
def isStandardFormat (name : String) : Bool := (stdRegex name.data).isSome

/-- `TimeParser._parse_standard_format` (time_utils.py:93-109). -/
def parseStandardFormat (name path : String) : Option ParsedFolder :=
  match stdRegex name.data with
  | none => none
  | some (d8, t6, t) =>
    match strptime6 d8 t6 with
    | none => none
    | some dt => some ⟨name, path, dt, String.mk t, none⟩

def errorPfx : List Char := "19700101-080000_".data

/-- `TimeParser.is_error_time_format` (time_utils.py:69-72):
`folder_name.startswith("19700101-080000_")`. -/
def isErrorTimeFormat (name : String) : Bool := segAt errorPfx name.data

/-- `TimeParser._parse_error_time_format` (time_utils.py:111-125):
`ERROR_TIME_PATTERN = 19700101-080000_(.+)` with the fixed sentinel date
1970-01-01 08:00:00. -/
def parseErrorTimeFormat (name path : String) : Option ParsedFolder :=
  if segAt errorPfx name.data then
    match name.data.drop errorPfx.length with
    | [] => none
    | c :: rest =>
      if c = '\n' then none
      else some ⟨name, path, ⟨1970, 1, 1, 8, 0, 0⟩,
        String.mk ((c :: rest).takeWhile (fun x => x ≠ '\n')), none⟩
  else none

/-- `TimeParser.parse_folder_name` (time_utils.py:33-57): the BLREC branch is
taken whenever the marker substring occurs, and its result — `None`
included — is returned without ever trying the other grammars. -/
def parseFolderName (name path : String) : Option ParsedFolder :=
  if isBlrecFormat name then parseBlrecFormat name path
  else if isStandardFormat name then parseStandardFormat name path
  else if isErrorTimeFormat name then parseErrorTimeFormat name path
  else none

/-- `FLV_PATTERN = (\d{8}-\d{6})` head test at one position. -/
def flvTokenAt (s : List Char) : Option (List Char × List Char) :=
  if (s.take 8).length = 8 && (s.take 8).all (fun c => c.isDigit) then
    match s.drop 8 with
    | '-' :: rest2 =>
      if (rest2.take 6).length = 6 && (rest2.take 6).all (fun c => c.isDigit) then
        some (s.take 8, rest2.take 6)
      else none
    | _ => none
  else none

/-- `re.search(FLV_PATTERN, flv_name)`: leftmost occurrence. -/
def searchFlvToken : List Char → Option (List Char × List Char)
  | [] => none
  | c :: rest =>
    match flvTokenAt (c :: rest) with
    | some r => some r
    | none => searchFlvToken rest

/-- `TimeParser.parse_flv_filename` (time_utils.py:127-145). -/
def parseFlvFilename (s : String) : Option DateTime6 :=
  match searchFlvToken s.data with
  | none => none
  | some dt => strptime6 dt.1 dt.2

/-- `FlvFileManager.extract_flv_date_from_filename` (flv_manager.py:98-112):
recover a date from the cached newest-flv filename — all filesystem access
goes through the memoized `get_flv_info`. -/
def extractFlvDateFromFilename (fs : FlvFS) (cache : FlvCache) (p : String) :
    Option DateTime6 × FlvCache :=
  (match (getFlvInfo fs cache p).1 with
   | none => none
   | some i => parseFlvFilename i.filename,
   (getFlvInfo fs cache p).2)

def ex10 : String := "20250521-191246_T【blrec-mp4】"

def pathW : String := "p"

theorem findMergeChainsGo_consume (interval : Nat) (modTime : String → Option DT)
    (a : String) (t0 : DT) (pre l : List FolderE) (acc : List String)
    (hpre : ∀ g ∈ pre, isWithinInterval t0 g.date interval = true) :
    findMergeChainsGo interval modTime (some (a, t0, acc)) (pre ++ l) =
      findMergeChainsGo interval modTime
        (some (a, t0, (pre.map (fun g => g.path)).reverse ++ acc)) l := by
  induction pre generalizing acc with
  | nil => simp
  | cons g pre ih =>
    have hg : isWithinInterval t0 g.date interval = true := hpre g (by simp)
    have hrest : ∀ g' ∈ pre, isWithinInterval t0 g'.date interval = true :=
      fun g' hg' => hpre g' (by simp [hg'])
    simp only [List.cons_append, findMergeChainsGo, hg, if_true]
    rw [show pre.append l = pre ++ l from rfl, ih (g.path :: acc) hrest]
    simp [List.append_assoc]

theorem findMergeChainsGo_break (interval : Nat) (modTime : String → Option DT)
    (a : String) (t0 : DT) (b : FolderE) (post : List FolderE) (acc : List String)
    (hb : isWithinInterval t0 b.date interval = false)
    (hacc : acc ≠ []) :
    findMergeChainsGo interval modTime (some (a, t0, acc)) (b :: post) =
      (a, acc.reverse) :: findMergeChainsGo interval modTime none (b :: post) := by
  have hne : acc.isEmpty = false := by
    cases acc with
    | nil => exact absurd rfl hacc
    | cons x xs => rfl
  simp only [findMergeChainsGo, hb, if_false, hne, Bool.false_eq_true]
  cases hmb : modTime b.path with
  | none => simp [findMergeChainsGo, hmb]
  | some t0' => simp [findMergeChainsGo, hmb]

/-- C2: in `find_merge_chains`, an anchor folder `f` whose media modification
time is `t0` consumes exactly the maximal prefix `pre` of the later group
members whose nominal dates are within the interval of the fixed `t0`; the
first candidate `b` past the interval stops the scan, and every later member
(`post`) is never examined against this anchor — the derivation continues
afresh from `b`. -/
theorem l3_first_gap_breaks_chain (interval : Nat) (modTime : String → Option DT)
    (f b : FolderE) (pre post : List FolderE) (t0 : DT)
    (h0 : modTime f.path = some t0)
    (hpre : ∀ g ∈ pre, isWithinInterval t0 g.date interval = true)
    (hb : isWithinInterval t0 b.date interval = false)
    (hne : pre ≠ []) :
    findMergeChains interval modTime (f :: (pre ++ b :: post)) =
      (f.path, pre.map (fun g => g.path)) ::
        findMergeChains interval modTime (b :: post) := by
  unfold findMergeChains
  have h1 : findMergeChainsGo interval modTime none (f :: (pre ++ b :: post)) =
      findMergeChainsGo interval modTime (some (f.path, t0, [])) (pre ++ b :: post) := by
    simp [findMergeChainsGo, h0]
  rw [h1, findMergeChainsGo_consume interval modTime f.path t0 pre (b :: post) [] hpre]
  rw [findMergeChainsGo_break interval modTime f.path t0 b post _ hb
    (by simpa using hne)]
  simp

/-- C2 witness: anchor `latestModTime = T0 = 1000`, candidates at nominal
dates `T0+25`, `T0+90`, `T0+40`, interval 60s.  The gap of 90s breaks the
chain, so the chain holds only the first candidate even though the third
(gap 40s) would individually qualify. -/
theorem l3_first_gap_breaks_chain_witness :
    mtEx fA.path = some 1000 ∧
    isWithinInterval 1000 fB.date 60 = true ∧
    isWithinInterval 1000 fC.date 60 = false ∧
    isWithinInterval 1000 fD.date 60 = true ∧
    findMergeChains 60 mtEx [fA, fB, fC, fD] = [(pathA, [pathB])] := by
  refine ⟨by decide, by decide, by decide, by decide, ?_⟩
  have h := l3_first_gap_breaks_chain 60 mtEx fA fC [fB] [fD] 1000
    (by decide) (by decide) (by decide) (by decide)
  rw [show (fA :: ([fB] ++ fC :: [fD])) = [fA, fB, fC, fD] from rfl] at h
  rw [h]
  decide

/-- C3 (amended): for a pre-filter-passing adjacent pair whose media
timestamps lie on adjacent calendar days, the derived pair list for the pair
is `[(earlier, later)]` — a two-element instruction with the earlier folder as
target — exactly when `(midnight − earlier.latestModTime) +
(later.earliestMedia.createTime − midnight) ≤ threshold`, and is empty
otherwise. -/
theorem l4_cross_day_formula (interval : Int) (startHour endHour : Nat)
    (modTime : String → Option DT) (hasFlv : String → Bool)
    (firstCreate : String → Option DT) (a b : FolderE) (tm tc : DT)
    (hcand : isCrossDayCandidate startHour endHour a.date b.date = true)
    (hmt : modTime a.path = some tm)
    (hhf : hasFlv b.path = true)
    (hfc : firstCreate b.path = some tc)
    (hday : dayOf tc = dayOf tm + 1) :
    findCrossDayPairs interval startHour endHour modTime hasFlv firstCreate [a, b] =
      (if ((midnightAfter tm : Int) - (tm : Int)) + ((tc : Int) - (midnightAfter tm : Int))
          ≤ interval
       then [(a.path, b.path)] else []) := by
  have haccept : crossDayPairAccept interval startHour endHour modTime hasFlv firstCreate a b
      = decide (((midnightAfter tm : Int) - (tm : Int)) +
          ((tc : Int) - (midnightAfter tm : Int)) ≤ interval) := by
    unfold crossDayPairAccept
    rw [hmt, hfc, hcand]
    unfold calculateCrossDayInterval
    simp [hday, hhf]
  unfold findCrossDayPairs
  rw [haccept]
  by_cases hle : ((midnightAfter tm : Int) - (tm : Int)) +
      ((tc : Int) - (midnightAfter tm : Int)) ≤ interval
  · simp [hle, findCrossDayPairs]
  · simp [hle, findCrossDayPairs]

/-- C3 witness: `latestModTime` 23:58:25 on day D and `earliestMedia`
creation 00:22:58 on day D+1 give `(00:00:00 − 23:58:25) + (00:22:58 −
00:00:00) = 95 + 1378 = 1473` seconds (24m33s); the pair is accepted at
threshold 1800s and rejected at threshold 1200s. -/
theorem l4_cross_day_formula_witness :
    ((midnightAfter 86305 : Int) - (86305 : Int)) +
      ((87778 : Int) - (midnightAfter 86305 : Int)) = 1473 ∧
    findCrossDayPairs 1800 20 4 mtL4 hfL4 fcL4 [fL4a, fL4b] = [(pathA, pathB)] ∧
    findCrossDayPairs 1200 20 4 mtL4 hfL4 fcL4 [fL4a, fL4b] = [] := by
  refine ⟨by decide, ?_, ?_⟩
  · rw [l4_cross_day_formula 1800 20 4 mtL4 hfL4 fcL4 fL4a fL4b 86305 87778
      (by decide) (by decide) (by decide) (by decide) (by decide)]
    decide
  · rw [l4_cross_day_formula 1200 20 4 mtL4 hfL4 fcL4 fL4a fL4b 86305 87778
      (by decide) (by decide) (by decide) (by decide) (by decide)]
    decide

/-- C3 counterexample: the adjacent pair passes the nominal pre-filter and the
claim's interval formula gives `(midnight − latestModTime) + (createTime −
midnight) = 600 ≤ 1800` for every choice of the intervening midnight (the sum
telescopes to `88800 − 88200`), so the claim accepts the pair; but because the
two media timestamps fall on the same calendar day,
`calculate_cross_day_interval` returns infinity and the code rejects it. -/
theorem l4_cross_day_formula_counterexample :
    isCrossDayCandidate 20 4 fX4a.date fX4b.date = true ∧
    mtX4 pathA = some 88200 ∧ fcX4 pathB = some 88800 ∧
    (∀ m : Int, (m - (88200 : Int)) + ((88800 : Int) - m) ≤ 1800) ∧
    calculateCrossDayInterval 88200 88800 = none ∧
    findCrossDayPairs 1800 20 4 mtX4 hfL4 fcX4 [fX4a, fX4b] = [] := by
  refine ⟨by decide, by decide, by decide, ?_, by decide, by decide⟩
  intro m
  omega

/-- C4: the corrupted-record match target is the normal folder under the exact
`(recovered day, title)` key when present; when absent, the previous-day key
is used only for a recovered hour in `[0, 6]`; with a later recovered hour no
fallback match occurs and the error directory produces no fix at all. -/
theorem l5_recovery_lookup (normals : List ((Int × String) × String))
    (e : ErrFolderInfo) :
    (∀ m, lookupNormal normals (dayZ e.date, e.title) = some m →
      findMatchingNormalFolder normals e = some m) ∧
    (lookupNormal normals (dayZ e.date, e.title) = none → 6 < hourOf e.date →
      findMatchingNormalFolder normals e = none ∧ l5DeriveFixes normals [e] = []) ∧
    (∀ m, lookupNormal normals (dayZ e.date, e.title) = none →
      lookupNormal normals (dayZ e.date - 1, e.title) = some m →
      hourOf e.date ≤ 6 → findMatchingNormalFolder normals e = some m) := by
  refine ⟨?_, ?_, ?_⟩
  · intro m hm
    unfold findMatchingNormalFolder
    rw [hm]
  · intro hnone hhour
    have hfind : findMatchingNormalFolder normals e = none := by
      unfold findMatchingNormalFolder
      rw [hnone]
      cases hprev : lookupNormal normals (dayZ e.date - 1, e.title) with
      | none => rfl
      | some m =>
        have : decide (hourOf e.date ≤ 6) = false := by
          simp [Nat.not_le.mpr hhour]
        simp [this]
    refine ⟨hfind, ?_⟩
    simp [l5DeriveFixes, hfind]
  · intro m hnone hprev hhour
    unfold findMatchingNormalFolder
    rw [hnone, hprev]
    simp [hhour]

/-- C4 witness: no normal folder exists for the recovered day, one exists for
the previous day, and the recovered hour is 19 — so no fallback match occurs
and the corrupted directory yields no fix. -/
theorem l5_recovery_lookup_witness :
    lookupNormal normalsEx (dayZ errEx.date, errEx.title) = none ∧
    lookupNormal normalsEx (dayZ errEx.date - 1, errEx.title) =
      some pathNorm520 ∧
    hourOf errEx.date = 19 ∧
    findMatchingNormalFolder normalsEx errEx = none ∧
    l5DeriveFixes normalsEx [errEx] = [] := by
  have h := (l5_recovery_lookup normalsEx errEx).2.1 (by decide) (by decide)
  exact ⟨by decide, by decide, by decide, h.1, h.2⟩

/-- C1 (amended): on the merge path used by the four merge algorithms, content
is never compared at all — the first entry whose name already exists in the
target makes the move fail: entries before it are moved, the colliding entry
and every later entry remain in the source under their original names, the
target keeps its own copy, and the source folder is not removed. -/
theorem merge_collision_aborts (pre post tgt : List MFile) (x : MFile)
    (hpre : ∀ f ∈ pre, ∀ g ∈ tgt, g.name ≠ f.name)
    (hnodup : (pre.map (fun f => f.name)).Nodup)
    (hcoll : ∃ g ∈ tgt, g.name = x.name) :
    moveFilesBetweenFolders (pre ++ x :: post) tgt = (false, x :: post, tgt ++ pre) ∧
    mergeFolderContents (pre ++ x :: post) tgt = (false, some (x :: post), tgt ++ pre) := by
  have hmove : moveFilesBetweenFolders (pre ++ x :: post) tgt =
      (false, x :: post, tgt ++ pre) := by
    induction pre generalizing tgt with
    | nil =>
      obtain ⟨g, hg, hgx⟩ := hcoll
      have hany : tgt.any (fun g => g.name = x.name) = true := by
        simp only [List.any_eq_true]
        exact ⟨g, hg, by simp [hgx]⟩
      simp [moveFilesBetweenFolders, hany]
    | cons p pre ih =>
      have hnp : tgt.any (fun g => g.name = p.name) = false := by
        simp only [List.any_eq_false]
        intro g hg
        simp [hpre p (by simp) g hg]
      simp only [List.cons_append, moveFilesBetweenFolders, hnp, Bool.false_eq_true,
        if_false]
      have hpre' : ∀ f ∈ pre, ∀ g ∈ tgt ++ [p], g.name ≠ f.name := by
        intro f hf g hg
        rcases List.mem_append.mp hg with hg | hg
        · exact hpre f (by simp [hf]) g hg
        · have hgp : g = p := by simpa using hg
          subst hgp
          have hnotin := (List.nodup_cons.mp hnodup).1
          have hmem : f.name ∈ pre.map (fun f => f.name) :=
            List.mem_map.mpr ⟨f, hf, rfl⟩
          intro hEq
          exact hnotin (by simpa [hEq] using hmem)
      have hnodup' : (pre.map (fun f => f.name)).Nodup :=
        (List.nodup_cons.mp hnodup).2
      have hcoll' : ∃ g ∈ tgt ++ [p], g.name = x.name := by
        obtain ⟨g, hg, hgx⟩ := hcoll
        exact ⟨g, List.mem_append.mpr (Or.inl hg), hgx⟩
      rw [show pre.append (x :: post) = pre ++ x :: post from rfl,
        ih (tgt ++ [p]) hpre' hnodup' hcoll']
      simp
  refine ⟨hmove, ?_⟩
  simp [mergeFolderContents, hmove]

/-- C1 counterexample: a source file with an identical-content (hash-equal)
same-named twin in the target.  The claim says the source copy is deleted;
the code path used by the four merge algorithms instead fails the move, keeps
the source file in place, and does not remove the source folder. -/
theorem merge_collision_counterexample :
    srcC1.head?.map (fun f => f.content) = tgtC1.head?.map (fun f => f.content) ∧
    moveFilesBetweenFolders srcC1 tgtC1 = (false, srcC1, tgtC1) ∧
    mergeFolderContents srcC1 tgtC1 = (false, some srcC1, tgtC1) := by
  refine ⟨rfl, by decide, by decide⟩

/-- C1 witness for the amended theorem: with one non-colliding entry before
the colliding one, the first entry is moved, the collision aborts, and the
colliding entry stays in the source. -/
theorem merge_collision_aborts_witness :
    moveFilesBetweenFolders [⟨"b.flv", 5, 1⟩, ⟨nameColl, 10, 7⟩] tgtC1 =
      (false, [⟨nameColl, 10, 7⟩], tgtC1 ++ [⟨"b.flv", 5, 1⟩]) ∧
    mergeFolderContents [⟨"b.flv", 5, 1⟩, ⟨nameColl, 10, 7⟩] tgtC1 =
      (false, some [⟨nameColl, 10, 7⟩], tgtC1 ++ [⟨"b.flv", 5, 1⟩]) := by
  exact merge_collision_aborts [⟨"b.flv", 5, 1⟩] [] tgtC1 ⟨nameColl, 10, 7⟩
    (by decide) (by decide) (by decide)

/-- C5 counterexample: the second application of the same-day merge to the
result of the first application derives one further merge instruction (and
changes the tree again) — the pass is not idempotent. -/
theorem l3_not_idempotent_counterexample :
    (l3Pass 60 fs5).2 = 1 ∧
    (l3Pass 60 (l3Pass 60 fs5).1).2 = 1 ∧
    (l3Pass 60 (l3Pass 60 fs5).1).1 ≠ (l3Pass 60 fs5).1 := by
  refine ⟨by decide, by decide, by decide⟩

theorem l3Groups_snd_mono (interval : Nat)
    (gs : List ((Nat × String) × List MFolder)) (st : List MFolder × Nat) :
    st.2 ≤ (l3Groups interval gs st).2 := by
  induction gs generalizing st with
  | nil => simp [l3Groups]
  | cons kg rest ih =>
    simp only [l3Groups]
    have h1 := ih
      ((findMergeChains interval (fsModTime st.1) (kg.2.map toFolderE)).foldl execChain st.1,
       st.2 + (findMergeChains interval (fsModTime st.1) (kg.2.map toFolderE)).length)
    simp only at h1
    omega

theorem l3Groups_zero_fst (interval : Nat)
    (gs : List ((Nat × String) × List MFolder)) (fs : List MFolder)
    (h : (l3Groups interval gs (fs, 0)).2 = 0) :
    (l3Groups interval gs (fs, 0)).1 = fs := by
  induction gs generalizing fs with
  | nil => simp [l3Groups]
  | cons kg rest ih =>
    simp only [l3Groups] at h ⊢
    have hlen : (findMergeChains interval (fsModTime fs) (kg.2.map toFolderE)).length = 0 := by
      have hmono := l3Groups_snd_mono interval rest
        ((findMergeChains interval (fsModTime fs) (kg.2.map toFolderE)).foldl execChain fs,
         0 + (findMergeChains interval (fsModTime fs) (kg.2.map toFolderE)).length)
      omega
    have hnil : findMergeChains interval (fsModTime fs) (kg.2.map toFolderE) = [] :=
      List.length_eq_zero.mp hlen
    rw [hnil] at h ⊢
    simpa using ih fs (by simpa using h)

/-- C5 (amended): a tree on which a pass derives zero instructions (and whose
folders are all non-empty, so the empty-folder pruning is inert) is a fixed
point — the pass leaves it unchanged and a second application again derives
zero instructions.  In general a pass that does execute merges may expose new
mergeable pairs, so two successive applications need not agree
(`l3_not_idempotent_counterexample`). -/
theorem l3_zero_pass_fixed_point (interval : Nat) (fs : List MFolder)
    (h0 : (l3Pass interval fs).2 = 0)
    (hne : ∀ f ∈ fs, ¬ f.files.isEmpty) :
    l3Pass interval fs = (fs, 0) ∧
    l3Pass interval (l3Pass interval fs).1 = (fs, 0) := by
  have hsnd : (l3Groups interval (mergeableGroups fs) (fs, 0)).2 = 0 := h0
  have hfst : (l3Groups interval (mergeableGroups fs) (fs, 0)).1 = fs :=
    l3Groups_zero_fst interval (mergeableGroups fs) fs hsnd
  have hclean : cleanupTopEmpty fs = fs := by
    unfold cleanupTopEmpty
    exact List.filter_eq_self.mpr (fun f hf => by simpa using hne f hf)
  have hpass : l3Pass interval fs = (fs, 0) := by
    show (cleanupTopEmpty (l3Groups interval (mergeableGroups fs) (fs, 0)).1,
      (l3Groups interval (mergeableGroups fs) (fs, 0)).2) = (fs, 0)
    rw [hfst, hsnd, hclean]
  refine ⟨hpass, ?_⟩
  rw [hpass]
  exact hpass

/-- C5 witness for the amended theorem: a single-folder tree — the pass
derives nothing and is a fixed point. -/
theorem l3_zero_pass_fixed_point_witness :
    (l3Pass 60 [⟨pathA, 900, title5, [⟨name5a, 1000, 0⟩]⟩]).2 = 0 ∧
    l3Pass 60 [⟨pathA, 900, title5, [⟨name5a, 1000, 0⟩]⟩] =
      ([⟨pathA, 900, title5, [⟨name5a, 1000, 0⟩]⟩], 0) := by
  refine ⟨by decide, ?_⟩
  exact (l3_zero_pass_fixed_point 60 [⟨pathA, 900, title5, [⟨name5a, 1000, 0⟩]⟩]
    (by decide) (by decide)).1

/-- C6 counterexample: one invocation of the processor (`l3Pass`) is a single
pass and stops there, so its result differs from the spec's loop-until-zero
semantics (`specLoopL3`) on a tree where the first merge exposes a new
mergeable pair. -/
theorem l3_single_pass_counterexample :
    (l3Pass 60 fs5).1 ≠ specLoopL3 60 5 fs5 := by
  decide

/-- C6 (amended): one invocation applies the scan–derive–execute pass exactly
once; the resulting tree can still derive further instructions, which only a
subsequent invocation (or the spec's explicit loop, which does reach
quiescence here) would pick up. -/
theorem l3_single_pass_leaves_work :
    (l3Pass 60 fs5).2 = 1 ∧
    (l3Pass 60 (l3Pass 60 fs5).1).2 = 1 ∧
    (l3Pass 60 (specLoopL3 60 5 fs5)).2 = 0 := by
  refine ⟨by decide, by decide, by decide⟩

mutual
theorem recEmptyE_iff_filesOfE (e : Entry) :
    recEmptyE e = true ↔ filesOfE e = [] := by
  cases e with
  | file c => simp [recEmptyE, filesOfE]
  | dir es => simpa [recEmptyE, filesOfE] using recEmptyL_iff_filesOfL es
theorem recEmptyL_iff_filesOfL (es : List (String × Entry)) :
    recEmptyL es = true ↔ filesOfL es = [] := by
  cases es with
  | nil => simp [recEmptyL, filesOfL]
  | cons p rest =>
    obtain ⟨n, e⟩ := p
    have h1 := recEmptyE_iff_filesOfE e
    have h2 := recEmptyL_iff_filesOfL rest
    simp [recEmptyL, filesOfL, h1, h2, List.append_eq_nil, Bool.and_eq_true,
      List.map_eq_nil_iff]
end

mutual
theorem cleanupE_none_sound (st : Status) (name : String) (e : Entry)
    (h : (cleanupE st name e).1 = none) :
    recEmptyE e = true ∧ isActive st name = false := by
  cases e with
  | file c => simp [cleanupE] at h
  | dir es =>
    simp only [cleanupE, dirVerdict] at h
    by_cases hE : (cleanupL st es).1.isEmpty
    · rw [if_pos hE] at h
      by_cases hA : isActive st name
      · rw [if_pos hA] at h
        simp at h
      · refine ⟨?_, by simpa using hA⟩
        have := cleanupL_nil_sound st es (by simpa using hE)
        simpa [recEmptyE] using this
    · rw [if_neg hE] at h
      simp at h
theorem cleanupL_nil_sound (st : Status) (es : List (String × Entry))
    (h : (cleanupL st es).1 = []) : recEmptyL es = true := by
  cases es with
  | nil => simp [recEmptyL]
  | cons p rest =>
    obtain ⟨n, e⟩ := p
    rcases hv : cleanupE st n e with ⟨oe, c2⟩
    cases oe with
    | none =>
      simp only [cleanupL, hv] at h
      have h1 : recEmptyL rest = true := cleanupL_nil_sound st rest h
      have h2 : recEmptyE e = true :=
        (cleanupE_none_sound st n e (by rw [hv])).1
      simp [recEmptyL, h1, h2]
    | some e' =>
      simp [cleanupL, hv] at h
end

mutual
theorem cleanupE_preserves_files (st : Status) (name : String) (e : Entry) :
    ∀ e', (cleanupE st name e).1 = some e' → filesOfE e' = filesOfE e := by
  intro e' h
  cases e with
  | file c =>
    simp only [cleanupE] at h
    cases h
    rfl
  | dir es =>
    have hL := cleanupL_preserves_files st es
    simp only [cleanupE, dirVerdict] at h
    by_cases hE : (cleanupL st es).1.isEmpty
    · rw [if_pos hE] at h
      by_cases hA : isActive st name
      · rw [if_pos hA] at h
        simp only [Option.some.injEq] at h
        subst h
        have hnil : (cleanupL st es).1 = [] := by simpa using hE
        rw [hnil] at hL
        simpa [filesOfE, filesOfL] using hL.symm
      · rw [if_neg hA] at h
        simp at h
    · rw [if_neg hE] at h
      simp only [Option.some.injEq] at h
      subst h
      simpa [filesOfE] using hL
theorem cleanupL_preserves_files (st : Status) (es : List (String × Entry)) :
    filesOfL (cleanupL st es).1 = filesOfL es := by
  cases es with
  | nil => simp [cleanupL]
  | cons p rest =>
    obtain ⟨n, e⟩ := p
    have hrest := cleanupL_preserves_files st rest
    rcases hv : cleanupE st n e with ⟨oe, c2⟩
    cases oe with
    | none =>
      have h2 : recEmptyE e = true := (cleanupE_none_sound st n e (by rw [hv])).1
      have h3 : filesOfE e = [] := (recEmptyE_iff_filesOfE _).mp h2
      simp [cleanupL, hv, filesOfL, hrest, h3]
    | some e' =>
      have h4 : filesOfE e' = filesOfE e :=
        cleanupE_preserves_files st n e e' (by rw [hv])
      simp [cleanupL, hv, filesOfL, hrest, h4]
end

mutual
theorem cleanupE_keeps_active_dirs (st : Status) (name : String) (e : Entry) :
    ∀ pb ∈ dirPathsE e, isActive st pb.2 = true →
      ∃ e', (cleanupE st name e).1 = some e' ∧ pb ∈ dirPathsE e' := by
  intro pb hpb hact
  cases e with
  | file c => simp [dirPathsE] at hpb
  | dir es =>
    have hmem : pb ∈ dirPathsL (cleanupL st es).1 :=
      cleanupL_keeps_active_dirs st es pb (by simpa [dirPathsE] using hpb) hact
    have hnonnil : (cleanupL st es).1 ≠ [] := by
      intro hnil
      rw [hnil] at hmem
      simp [dirPathsL] at hmem
    have hne : (cleanupL st es).1.isEmpty = false := by
      cases hx : (cleanupL st es).1 with
      | nil => exact absurd hx hnonnil
      | cons a l => rfl
    refine ⟨.dir (cleanupL st es).1, ?_, by simpa [dirPathsE] using hmem⟩
    simp [cleanupE, dirVerdict, hne]
theorem cleanupL_keeps_active_dirs (st : Status) (es : List (String × Entry)) :
    ∀ pb ∈ dirPathsL es, isActive st pb.2 = true →
      pb ∈ dirPathsL (cleanupL st es).1 := by
  intro pb hpb hact
  cases es with
  | nil => simp [dirPathsL] at hpb
  | cons p rest =>
    obtain ⟨n, e⟩ := p
    simp only [dirPathsL, List.mem_append, List.mem_map] at hpb
    rcases hpb with (hpb | ⟨⟨q, base⟩, hq, hmap⟩) | hpb
    · -- pb is the child (n, e) itself, so e is a directory and n is active.
      cases e with
      | file c => simp [dirSelf] at hpb
      | dir ds =>
        have hpbn : pb = ([n], n) := by simpa [dirSelf] using hpb
        subst hpbn
        have hactn : isActive st n = true := hact
        rcases hv : cleanupE st n (.dir ds) with ⟨oe, c2⟩
        cases oe with
        | none =>
          exfalso
          have := (cleanupE_none_sound st n (.dir ds) (by rw [hv])).2
          rw [hactn] at this
          exact Bool.noConfusion this
        | some e' =>
          have he' : ∃ ds2, e' = .dir ds2 := by
            simp only [cleanupE, dirVerdict] at hv
            by_cases hE : (cleanupL st ds).1.isEmpty
            · rw [if_pos hE, hactn, if_pos rfl] at hv
              have h1 := congrArg Prod.fst hv
              exact ⟨[], by simpa using h1.symm⟩
            · rw [if_neg hE] at hv
              have h1 := congrArg Prod.fst hv
              exact ⟨(cleanupL st ds).1, by simpa using h1.symm⟩
          obtain ⟨ds2, rfl⟩ := he'
          simp [cleanupL, hv, dirPathsL, dirSelf]
    · -- pb lies inside the child e.
      have hbase : base = pb.2 := by rw [← hmap]
      obtain ⟨e', he', hin⟩ :=
        cleanupE_keeps_active_dirs st n e (q, base) hq (by rw [hbase]; exact hact)
      rcases hv : cleanupE st n e with ⟨oe, c2⟩
      rw [hv] at he'
      cases oe with
      | none => simp at he'
      | some e0 =>
        have he0 : e0 = e' := by simpa using he'
        subst he0
        simp only [cleanupL, hv, dirPathsL, List.mem_append, List.mem_map]
        exact Or.inl (Or.inr ⟨(q, base), hin, hmap⟩)
    · -- pb lies among the remaining siblings.
      have hr := cleanupL_keeps_active_dirs st rest pb hpb hact
      rcases hv : cleanupE st n e with ⟨oe, c2⟩
      cases oe with
      | none => simpa [cleanupL, hv, dirPathsL] using hr
      | some e' => simp [cleanupL, hv, dirPathsL, hr]
end

/-- C9 (amended): the recursive pruning primitive deletes its argument only
when the argument is recursively empty and its base name is not flagged
active; when the argument survives, every file below it survives at its exact
path, and every subdirectory whose base name is flagged active also survives —
but recursively empty, non-active descendant directories may still be pruned,
so a retained directory does not keep its contents unchanged in general. -/
theorem cleanup_safety (st : Status) (name : String) (e : Entry) :
    ((cleanupE st name e).1 = none →
      recEmptyE e = true ∧ isActive st name = false) ∧
    (∀ e', (cleanupE st name e).1 = some e' → filesOfE e' = filesOfE e) ∧
    (∀ pb ∈ dirPathsE e, isActive st pb.2 = true →
      ∃ e', (cleanupE st name e).1 = some e' ∧ pb ∈ dirPathsE e') :=
  ⟨cleanupE_none_sound st name e,
   cleanupE_preserves_files st name e,
   cleanupE_keeps_active_dirs st name e⟩

/-- C9 counterexample: on `tree9` the primitive neither deletes the directory
nor leaves its contents unchanged — the empty subdirectory `E` is pruned while
the directory itself is retained, so the claimed delete-or-untouched dichotomy
fails. -/
theorem cleanup_dichotomy_counterexample :
    cleanupE none nameD tree9 = (some (.dir [(nameF, .file 0)]), 1) ∧
    (cleanupE none nameD tree9).1 ≠ none ∧
    (cleanupE none nameD tree9).1 ≠ some tree9 := by
  refine ⟨rfl, ?_, ?_⟩
  · rw [show cleanupE none nameD tree9 = (some (.dir [(nameF, .file 0)]), 1) from rfl]
    simp
  · rw [show cleanupE none nameD tree9 = (some (.dir [(nameF, .file 0)]), 1) from rfl]
    simp [tree9, nameE, nameF]

/-- C9 witness for the amended theorem, exercising all three conjuncts: an
empty inactive directory is deleted; `tree9` survives with its file intact;
and an empty directory whose name is flagged active survives pruning inside
`tree9`. -/
theorem cleanup_safety_witness :
    (recEmptyE (Entry.dir []) = true ∧ isActive none nameD = false) ∧
    (filesOfE (.dir [(nameF, .file 0)]) = filesOfE tree9) ∧
    (∃ e', (cleanupE (some [(nameE, true, false)]) nameD tree9).1 = some e' ∧
      ([nameE], nameE) ∈ dirPathsE e') := by
  refine ⟨(cleanup_safety none nameD (Entry.dir [])).1 rfl, ?_, ?_⟩
  · exact (cleanup_safety none nameD tree9).2.1 (.dir [(nameF, .file 0)]) rfl
  · refine (cleanup_safety (some [(nameE, true, false)]) nameD tree9).2.2
      ([nameE], nameE) ?_ ?_
    · show ([nameE], nameE) ∈ dirPathsE tree9
      rw [show dirPathsE tree9 = [([nameE], nameE)] from rfl]
      simp
    · rfl

/-- C7 counterexample: a same-named directory exists in source and target; the
claim says the merge recurses into the pair, but the code skips it — the call
returns success with source and target completely unchanged: the file stays
under the source's `D` and the target's `D` stays empty. -/
theorem md5_dir_pair_counterexample :
    mergeFolderContentsWithMd5 none nameS src7 tgt7 = (true, some src7, tgt7) ∧
    lookupE ((mergeFolderContentsWithMd5 none nameS src7 tgt7).2.2) nameD =
      some (.dir []) ∧
    (mergeFolderContentsWithMd5 none nameS src7 tgt7).2.1.map
      (fun es => lookupE es nameD) = some (some (.dir [(nameF, .file 1)])) := by
  refine ⟨rfl, rfl, rfl⟩

/-- C7 (amended): when the source consists of a directory entry whose name
also exists in the target (as any kind of entry), the merge loop skips the
pair without recursing: the call succeeds, the target is unchanged, and the
source still holds the directory with every one of its files (the end-of-loop
cleanup may only prune recursively empty subdirectories inside it). -/
theorem md5_merge_skips_dir_pairs (st : Status) (srcName n : String)
    (d : List (String × Entry)) (te : Entry) (tgt : List (String × Entry))
    (hl : lookupE tgt n = some te)
    (hne : recEmptyE (.dir d) = false) :
    ∃ e', mergeFolderContentsWithMd5 st srcName [(n, .dir d)] tgt =
        (true, some [(n, e')], tgt) ∧ filesOfE e' = filesOfE (.dir d) := by
  have hlookup : lookupE [(n, Entry.dir d)] n = some (.dir d) := by
    simp [lookupE]
  have hcl : (cleanupL st d).1 ≠ [] := by
    intro hnil
    have := cleanupL_nil_sound st d hnil
    rw [show recEmptyE (Entry.dir d) = recEmptyL d from rfl] at hne
    rw [this] at hne
    exact Bool.noConfusion hne
  have hclE : (cleanupL st d).1.isEmpty = false := by
    cases hx : (cleanupL st d).1 with
    | nil => exact absurd hx hcl
    | cons a l => rfl
  have hcleanE : cleanupE st n (.dir d) =
      (some (.dir (cleanupL st d).1), (cleanupL st d).2) := by
    simp [cleanupE, dirVerdict, hclE]
  have hclsrc : cleanupL st [(n, Entry.dir d)] =
      ([(n, .dir (cleanupL st d).1)], (cleanupL st d).2) := by
    simp [cleanupL, hcleanE]
  refine ⟨.dir (cleanupL st d).1, ?_, ?_⟩
  · show mergeMd5Loop st srcName [(n, .dir d)] (some [(n, .dir d)]) tgt =
      (true, some [(n, .dir (cleanupL st d).1)], tgt)
    have hstep : mergeMd5Loop st srcName [(n, .dir d)] (some [(n, .dir d)]) tgt =
        mergeMd5Loop st srcName [] (some [(n, .dir d)]) tgt := by
      simp only [mergeMd5Loop, hl, hlookup]
    rw [hstep]
    show (match dirVerdict st srcName (cleanupL st [(n, Entry.dir d)]) with
      | (none, _) => (true, none, tgt)
      | (some (.dir es2), _) => (true, some es2, tgt)
      | (some (.file _), _) => (true, some [(n, Entry.dir d)], tgt)) =
      (true, some [(n, .dir (cleanupL st d).1)], tgt)
    rw [hclsrc]
    simp [dirVerdict]
  · show filesOfL (cleanupL st d).1 = filesOfE (.dir d)
    rw [cleanupL_preserves_files st d]
    rfl

/-- C7 witness for the amended theorem at the concrete `src7`/`tgt7` trees. -/
theorem md5_merge_skips_dir_pairs_witness :
    lookupE tgt7 nameD = some (.dir []) ∧
    recEmptyE (.dir [(nameF, .file 1)]) = false ∧
    (∃ e', mergeFolderContentsWithMd5 none nameS src7 tgt7 =
      (true, some [(nameD, e')], tgt7) ∧
      filesOfE e' = filesOfE (.dir [(nameF, .file 1)])) := by
  refine ⟨rfl, rfl, ?_⟩
  exact md5_merge_skips_dir_pairs none nameS nameD [(nameF, .file 1)] (.dir []) tgt7
    rfl rfl

/-- C8 (amended): the `get_flv_info`-based accessors — `get_flv_info` itself,
`has_flv_file` and `extract_flv_date_from_filename` — are memoized per path:
a second call, even against a changed filesystem, returns exactly the stored
result of the first computation and leaves the cache unchanged.  (The
uncached `get_flv_modification_time` and `get_first_flv_creation_time` are
the subject of the counterexample.) -/
theorem flv_info_memoized (fs1 fs2 : FlvFS) (cache : FlvCache) (p : String) :
    getFlvInfo fs2 (getFlvInfo fs1 cache p).2 p =
      ((getFlvInfo fs1 cache p).1, (getFlvInfo fs1 cache p).2) ∧
    hasFlvFile fs2 (getFlvInfo fs1 cache p).2 p =
      ((getFlvInfo fs1 cache p).1.isSome, (getFlvInfo fs1 cache p).2) ∧
    extractFlvDateFromFilename fs2 (extractFlvDateFromFilename fs1 cache p).2 p =
      extractFlvDateFromFilename fs1 cache p := by
  have hmain : getFlvInfo fs2 (getFlvInfo fs1 cache p).2 p =
      ((getFlvInfo fs1 cache p).1, (getFlvInfo fs1 cache p).2) := by
    unfold getFlvInfo
    cases hfind : cache.find? (fun e => e.1 = p) with
    | some e => simp [hfind]
    | none => simp [hfind, List.find?]
  refine ⟨hmain, ?_, ?_⟩
  · unfold hasFlvFile
    rw [hmain]
  · unfold extractFlvDateFromFilename
    rw [hmain]

/-- C8 counterexample: after the tree changes between two calls,
`get_flv_modification_time` and `get_first_flv_creation_time` return the new
values — they recompute from the filesystem instead of returning the stored
result of the first computation — while the cached `get_flv_info` still
returns its first result.  So not every media accessor is memoized. -/
theorem flv_modtime_not_memoized_counterexample :
    getFlvModificationTime fs8a pathA = some 10 ∧
    getFlvModificationTime fs8b pathA = some 20 ∧
    getFirstFlvCreationTime fs8a pathA = some 5 ∧
    getFirstFlvCreationTime fs8b pathA = some 3 ∧
    (getFlvInfo fs8b (getFlvInfo fs8a [] pathA).2 pathA).1 = some ⟨fileX, 10⟩ := by
  refine ⟨by decide, by decide, by decide, by decide, by decide⟩

/-- C10: a directory name containing the tool-A marker `【blrec-` that fails
the full BLREC grammar parses to no record at all — the generic and
error-time grammars are never consulted, so the directory is dropped by every
indexer (`BaseFolderIndexer._iterate_folders` skips a `None` parse,
indexing.py:108-113) and is never merged. -/
theorem blrec_marker_is_exclusive (name path : String)
    (hmark : isBlrecFormat name = true)
    (hfail : parseBlrecFormat name path = none) :
    parseFolderName name path = none := by
  unfold parseFolderName
  rw [hmark, if_pos rfl, hfail]

/-- C10 witness: `20250521-191246_T【blrec-mp4】` contains the marker but its
tag is neither `blrec-flv` nor `blrec-hls`; the generic grammar would match
the name (title `T【blrec-mp4】`), yet the parse yields no record. -/
theorem blrec_marker_is_exclusive_witness :
    isBlrecFormat ex10 = true ∧
    parseBlrecFormat ex10 pathW = none ∧
    isStandardFormat ex10 = true ∧
    parseFolderName ex10 pathW = none := by
  refine ⟨by decide, by decide, by decide, ?_⟩
  exact blrec_marker_is_exclusive ex10 pathW (by decide) (by decide)

end SRO
